import Mathlib

/-!
Shallow embedding of the erpc request-handling core:
route-tree compilation and path matching (lib/error.ts routing part),
the middleware chain builder (lib/middleware.ts), the error
transformation and default error handler (utils/errorHandling.ts,
lib/server.ts), the websocket upgrade outcome (lib/server.ts) and the
per-connection inbound frame dispatcher (Connection in websocket
module).
-/

namespace Erpc

/-- Variable/locals maps are modelled as write sequences: a JS object
assignment appends at the end, and lookup takes the LAST write for a key
(later assignments shadow earlier ones). -/
def objGet {V : Type} : List (String × V) → String → Option V
  | [], _ => none
  | (k2, v) :: rest, k =>
    match objGet rest k with
    | some r => some r
    | none => if k2 = k then some v else none

/-- JS `str.startsWith(c)` for a one-character needle, modelled over the
underlying character list (kernel-reducible, unlike String.startsWith). -/
def strStartsWithChar (c : Char) (s : String) : Bool :=
  match s.data with
  | [] => false
  | c2 :: _ => c2 = c

/-- JS `str.slice(1, str.length)`: drop the first character. -/
def strTail (s : String) : String := String.mk (s.data.drop 1)

/-- JS `str.slice(0, str.length - 1)`: drop the last character. -/
def strDropLast (s : String) : String := String.mk (s.data.dropLast)

/-- JS `str[str.length-1] == c` for a one-character needle. -/
def strEndsWithChar (c : Char) (s : String) : Bool :=
  match s.data.getLast? with
  | none => false
  | some c2 => c2 = c

/-- JS `str.split(sep)` for a one-character separator, over the character
list: "a/b" gives ["a","b"], "" gives [""], "a//b" gives ["a","","b"]. -/
def splitOnCharAux (sep : Char) : List Char → List (List Char)
  | [] => [[]]
  | c :: rest =>
    match splitOnCharAux sep rest with
    | [] => if c = sep then [[], []] else [[c]]
    | h :: t => if c = sep then [] :: h :: t else (c :: h) :: t

/-- JS `str.split(sep)` for a one-character separator. -/
def strSplitOnChar (sep : Char) (s : String) : List String :=
  (splitOnCharAux sep s.data).map String.mk

/-- utils/removeWrappingSlashes.ts: strips a single leading slash, or
ELSE a single trailing slash (never both). -/
def removeWrappingSlashes (s : String) : String :=
  if strStartsWithChar '/' s then strTail s
  else if strEndsWithChar '/' s then strDropLast s
  else s

/- CompiledRoutingEngine entries: a path-segment list paired with either
a terminal thunk (modelled by its value) or a nested compiled subtree.
Mutual encoding of the nested array-of-pairs type. -/
mutual
inductive RouteVal (T : Type) : Type where
  | fn (t : T) : RouteVal T
  | sub (s : Engine T) : RouteVal T
inductive Engine (T : Type) : Type where
  | nil : Engine T
  | cons (path : List String) (val : RouteVal T) (rest : Engine T) : Engine T
end

/- The raw (human-declared) route tree: keys are template strings,
values are terminals or nested trees (mutual encoding of the nested
object type). -/
mutual
inductive RawVal (T : Type) : Type where
  | fn (t : T) : RawVal T
  | sub (e : RawEngine T) : RawVal T
inductive RawEngine (T : Type) : Type where
  | nil : RawEngine T
  | cons (path : String) (v : RawVal T) (rest : RawEngine T) : RawEngine T
end

mutual
/-- compileRouteTree on a leaf value. -/
def compileVal {T : Type} : RawVal T → RouteVal T
  | .fn t => .fn t
  | .sub e => .sub (compileRouteTree e)
/-- compileRouteTree: strip a wrapping slash from each key, split on "/"
into segments, recursively compile each value, preserving order. -/
def compileRouteTree {T : Type} : RawEngine T → Engine T
  | .nil => .nil
  | .cons path v rest =>
    .cons (strSplitOnChar '/' (removeWrappingSlashes path)) (compileVal v) (compileRouteTree rest)
end

/-- `typeof subrouter === "function"` test. -/
def RouteVal.isFn {T : Type} : RouteVal T → Bool
  | .fn _ => true
  | .sub _ => false

/-- getIndexHandler: find the FIRST entry whose first segment is the
empty string; if its value is a subtree, resolve that subtree's own
index handler (without falling back to later siblings). -/
def getIndexHandler {T : Type} (e : Engine T) : Option T :=
  match e with
  | .nil => none
  | .cons path (.fn t) rest =>
    if path.head? = some "" then some t else getIndexHandler rest
  | .cons path (.sub s) rest =>
    if path.head? = some "" then getIndexHandler s else getIndexHandler rest
termination_by structural e

/-- The checkPathSegments loop of matchPathToEndpoint: walk template and
input segments in lockstep up to the template length.  Exact equality is
tested FIRST; only otherwise a ":"-prefixed template segment binds the
input segment under its name (template segment minus the ":"). -/
def checkPathSegments : List String → List String → Option (List (String × String))
  | [], _ => some []
  | _ :: _, [] => none
  | x :: xs, y :: ys =>
    if x = y then checkPathSegments xs ys
    else if strStartsWithChar ':' x then
      (checkPathSegments xs ys).map (fun vs => (strTail x, y) :: vs)
    else none

/-- matchPathToEndpoint: first-match-wins scan over the sibling entries
in declaration order, with the length guards, the segment loop, the
equal-length terminal/index cases and the longer-input recursion merging
outer bindings with inner ones (inner spread last, so inner wins). -/
def matchPathToEndpoint {T : Type} (e : Engine T) (segments : List String) :
    Option (List (String × String) × T) :=
  match e with
  | .nil => none
  | .cons path val rest =>
    if path.length > segments.length then matchPathToEndpoint rest segments
    else if path.length < segments.length && val.isFn then matchPathToEndpoint rest segments
    else
      match checkPathSegments path segments with
      | none => matchPathToEndpoint rest segments
      | some vars =>
        if path.length = segments.length then
          match val with
          | .fn t => some (vars, t)
          | .sub s =>
            match getIndexHandler s with
            | some t => some (vars, t)
            | none => matchPathToEndpoint rest segments
        else
          match val with
          | .fn _ => matchPathToEndpoint rest segments
          | .sub s =>
            match matchPathToEndpoint s (segments.drop path.length) with
            | some (subVars, t) => some (vars ++ subVars, t)
            | none => matchPathToEndpoint rest segments
termination_by structural e

/-- Spec-side predicate, transcribed from the spec sentence for the
matcher ("returns a match iff some entry's literal segments agree with P
at every literal position ..."): every literal (non-variable) template
segment must equal the input segment at its position, and the input must
be at least as long as the template. -/
def literalsAgree : List String → List String → Bool
  | [], _ => true
  | _ :: _, [] => false
  | x :: xs, y :: ys => (strStartsWithChar ':' x || x = y) && literalsAgree xs ys

mutual
/-- Spec-side predicate for a single entry ("P's length is compatible:
equal length for a Terminal; length >= template length for a subtree
provided a deeper recursive match (longer input) or an index entry
(equal length) exists"), with index-entry existence read as the
designated empty-key index entry resolving to a handler (spec section
4.2 step 4 resolves it recursively). -/
def specEntryMatches {T : Type} (path : List String) (val : RouteVal T)
    (segments : List String) : Bool :=
  literalsAgree path segments &&
    match val with
    | .fn _ => path.length == segments.length
    | .sub s =>
      (path.length ≤ segments.length : Bool) &&
        (if path.length == segments.length then (getIndexHandler s).isSome
         else specMatches s (segments.drop path.length))
/-- Spec-side predicate for a whole tree: some entry matches. -/
def specMatches {T : Type} (e : Engine T) (segments : List String) : Bool :=
  match e with
  | .nil => false
  | .cons path val rest =>
    specEntryMatches path val segments || specMatches rest segments
end

/-! ## Middleware chain (lib/middleware.ts) -/

/-- What one middleware step produces: a partial-context object (list of
key/value pairs written into res.locals) or a rejection. -/
inductive StepOutcome (E V : Type) : Type where
  | ok (entries : List (String × V)) : StepOutcome E V
  | err (e : E) : StepOutcome E V
deriving DecidableEq

/-- res.locals: the single per-request mutable key/value map. -/
abbrev Ctx (V : Type) := List (String × V)

/-- A middleware step: reads the accumulated context, returns a partial
context or fails (the Middleware type of lib/middleware.ts, with the
request folded into the context). -/
abbrev Step (E V : Type) := Ctx V → StepOutcome E V

/-- The per-pair assignment loop over Object.entries of a resolved step
result: each returned pair is assigned into the locals object in order
(a later write to the same key shadows an earlier one under objGet). -/
def applyLocals {V : Type} (ctx : Ctx V) (entries : List (String × V)) : Ctx V :=
  ctx ++ entries

/-- Observable outcome of dispatching one request through the middleware
list built by `use`: how many steps ran, whether the terminal handler
ran, the success-envelope payload if any, and the failures delivered to
the root-level error handler via next(err). -/
structure ChainTrace (E R : Type) : Type where
  ran : Nat
  handlerRan : Bool
  response : Option R
  sink : List E
deriving DecidableEq

/-- Express-style execution of the wrapped middleware list produced by
`use`: each wrapper runs its step, on resolution writes the returned
entries into res.locals and calls next(), on rejection calls next(err)
(which skips every remaining wrapper and the terminal one and delivers
the error to the error handler); the final wrapper runs the terminal
handler on res.locals and responds with the success envelope, its own
rejection also going to next(err). -/
def runChain {E V R : Type} (steps : List (Step E V)) (handler : Ctx V → Except E R)
    (ctx : Ctx V) : ChainTrace E R :=
  match steps with
  | [] =>
    match handler ctx with
    | .ok r => ⟨0, true, some r, []⟩
    | .error e => ⟨0, true, none, [e]⟩
  | s :: rest =>
    match s ctx with
    | .ok entries =>
      let t := runChain rest handler (applyLocals ctx entries)
      ⟨t.ran + 1, t.handlerRan, t.response, t.sink⟩
    | .err e => ⟨1, false, none, [e]⟩

/-- Running just the steps, accumulating the context (helper used to
phrase "all earlier steps succeed"). -/
def runSteps {E V : Type} : List (Step E V) → Ctx V → Except E (Ctx V)
  | [], ctx => .ok ctx
  | s :: rest, ctx =>
    match s ctx with
    | .ok entries => runSteps rest (applyLocals ctx entries)
    | .err e => .error e

/-- The builder state of generateProcedure: the ordered list of
accumulated middleware steps (the `previous` array of lib/middleware.ts),
with the step type kept abstract. -/
structure GenProc (α : Type) : Type where
  previous : List α

/-- generateProcedure: copy the caller-supplied previous list and push
the new middleware at its end. -/
def generateProcedure {α : Type} (mw : α) (ctxPrevious : List α) : GenProc α :=
  ⟨ctxPrevious ++ [mw]⟩

/-- The extend function: build a fresh procedure from a copy of this
procedure's previous list plus the appended step; the receiver is not
written to. -/
def GenProc.extend {α : Type} (p : GenProc α) (append : α) : GenProc α :=
  generateProcedure append p.previous

/-! ## Errors (lib/error.ts, utils/errorHandling.ts, lib/server.ts) -/

/-- The five error kinds of ErrorMap. -/
inductive ErrorType : Type where
  | BAD_REQUEST | UNAUTHORIZED | FORBIDDEN | NOT_FOUND | SERVER_ERROR
deriving DecidableEq

/-- ErrorMap: kind to default HTTP status. -/
def ErrorMap : ErrorType → Nat
  | .BAD_REQUEST => 400
  | .UNAUTHORIZED => 401
  | .FORBIDDEN => 403
  | .NOT_FOUND => 404
  | .SERVER_ERROR => 500

/-- A raised failure as transformERPCError discriminates it: an
ERPCError (code, message, optional customCode), some other Error (with a
message), or a non-Error value. -/
inductive JsError : Type where
  | erpc (code : ErrorType) (message : String) (customCode : Option Nat)
  | plain (message : String)
  | nonError
deriving DecidableEq

/-- The error field of the HTTP error envelope: a structured
type-and-message object for ERPCErrors, a bare message string otherwise. -/
inductive ErrField : Type where
  | typed (type : ErrorType) (message : String)
  | text (message : String)
deriving DecidableEq

/-- utils/errorHandling.ts transformERPCError: an ERPCError maps to
customCode-if-set-else-ErrorMap-of-type with a typed error structure;
any other Error maps to 500 with its message; anything else to 500 with
"Unknown internal server error". -/
def transformERPCError : JsError → Nat × ErrField
  | .erpc code message customCode =>
    (customCode.getD (ErrorMap code), .typed code message)
  | .plain message => (500, .text message)
  | .nonError => (500, .text "Unknown internal server error")

/-- The response written by the default error handler. -/
structure ErrorResponse : Type where
  status : Nat
  success : Bool
  error : Option ErrField
deriving DecidableEq

/-- The default error handler installed in the Server constructor: map
the error, set the status only when the response status is still the
default 200, and answer with success false plus the error field,
suppressing the error detail unless LOG_ERRORS (verbose reporting) is
on. -/
def defaultErrorHandler (logErrors : Bool) (resStatusCode : Nat) (err : JsError) :
    ErrorResponse :=
  let r := transformERPCError err
  { status := if resStatusCode = 200 then r.1 else resStatusCode
    success := false
    error := if logErrors then some r.2 else none }

/-! ## WebSocket upgrade outcome (lib/server.ts createWebSocketHandler) -/

/-- The close reason payload (a JSON object with one error field), kept
structured. -/
structure CloseReason : Type where
  error : ErrField
deriving DecidableEq

/-- What the upgrade callback does to the socket after running the
route's setup handler. -/
inductive WsSetupAction : Type where
  | sendReady (frame : String)
  | close (code : Nat) (reason : CloseReason)
deriving DecidableEq

/-- createWebSocketHandler, after a successful route match: run the
setup handler; on resolution send the sentinel stabilize frame, on
rejection close the socket with 4000 plus the mapped status and the
structured error reason. -/
def handleSetupResult (outcome : Except JsError Unit) : WsSetupAction :=
  match outcome with
  | .ok _ => .sendReady "@scinorandex/erpc -- stabilize"
  | .error e =>
    let r := transformERPCError e
    .close (4000 + r.1) ⟨r.2⟩

/-! ## Connection inbound dispatch (websocket module, Connection) -/

/-- One inbound raw frame after JSON.parse plus envelope validation:
either it failed to parse as an eventName/data envelope, or it is a
well-formed envelope. -/
inductive Inbound (P : Type) : Type where
  | malformed
  | frame (eventName : String) (data : P)
deriving DecidableEq

/-- The observable effect of one registered event handler run: the
frames it emits and its failure, if it rejects. -/
structure HandlerEffect (E P : Type) : Type where
  sends : List (String × P)
  failure : Option E
deriving DecidableEq

/-- A registered event handler. -/
abbrev EventHandler (E P : Type) := P → HandlerEffect E P

/-- Everything the try block of the message listener can throw. -/
inductive CaughtErr (E : Type) : Type where
  | parseFail
  | missingHandler (name : String)
  | missingValidator (name : String)
  | schemaFail
  | handlerFailure (e : E)
deriving DecidableEq

/-- The try block of the Connection message listener, in source order:
parse the envelope, look up the handler (throw if missing), run the
event's validator (a missing validator is an undefined property access
that throws; a schema failure throws), then await the handler. Returns
the handler invocation performed (if reached), the frames sent, and the
error that was thrown, if any. -/
def tryDispatch {E P : Type} (validators : String → Option (P → Option P))
    (handlers : String → Option (EventHandler E P)) (msg : Inbound P) :
    Option (String × P) × List (String × P) × Option (CaughtErr E) :=
  match msg with
  | .malformed => (none, [], some .parseFail)
  | .frame eventName data =>
    match handlers eventName with
    | none => (none, [], some (.missingHandler eventName))
    | some handler =>
      match validators eventName with
      | none => (none, [], some (.missingValidator eventName))
      | some validator =>
        match validator data with
        | none => (none, [], some .schemaFail)
        | some parsedData =>
          let eff := handler parsedData
          (some (eventName, parsedData), eff.sends, eff.failure.map .handlerFailure)

/-- Observable result of the whole message listener for one frame. -/
structure ListenResult (E P : Type) : Type where
  invoked : Option (String × P)
  sent : List (String × P)
  closed : Bool
  swallowed : Option (CaughtErr E)
  uncaught : Option (CaughtErr E)
deriving DecidableEq

/-- The Connection message listener: the try block wrapped in an empty
catch — any thrown error is swallowed, nothing is sent in response to
it, the socket is not closed, and nothing escapes the listener. -/
def onMessage {E P : Type} (validators : String → Option (P → Option P))
    (handlers : String → Option (EventHandler E P)) (msg : Inbound P) :
    ListenResult E P :=
  match tryDispatch validators handlers msg with
  | (invoked, sent, errOpt) =>
    { invoked := invoked, sent := sent, closed := false,
      swallowed := errOpt, uncaught := none }

/-- The route tree of scenario A in the spec: one outer template
"/user/:id" whose subtree declares "/msg/:mid" ending in a terminal
(modelled by the value 0). -/
def scenarioARaw : RawEngine Nat :=
  .cons "/user/:id" (.sub (.cons "/msg/:mid" (.fn 0) .nil)) .nil

/-! ## Helper lemmas -/

/-- The segment loop succeeds exactly when the spec-side literal
agreement predicate holds. -/
theorem checkPathSegments_isSome (path segs : List String) :
    (checkPathSegments path segs).isSome = literalsAgree path segs := by
  induction path generalizing segs with
  | nil => cases segs <;> simp [checkPathSegments, literalsAgree]
  | cons x xs ih =>
    cases segs with
    | nil => simp [checkPathSegments, literalsAgree]
    | cons y ys =>
      by_cases hxy : x = y
      · simp [checkPathSegments, literalsAgree, hxy, ih]
      · by_cases hv : strStartsWithChar ':' x = true
        · simp [checkPathSegments, literalsAgree, hxy, hv, ih]
        · simp [checkPathSegments, literalsAgree, hxy, hv, ih]

/-- Literal agreement forces the template to be no longer than the
input. -/
theorem literalsAgree_length {path segs : List String}
    (h : literalsAgree path segs = true) : path.length ≤ segs.length := by
  induction path generalizing segs with
  | nil => simp
  | cons x xs ih =>
    cases segs with
    | nil => simp [literalsAgree] at h
    | cons y ys =>
      simp only [literalsAgree, Bool.and_eq_true] at h
      simpa using ih h.2

/-- An entry cannot satisfy the spec predicate when literal agreement
fails. -/
theorem specEntryMatches_false {T : Type} {path : List String} {val : RouteVal T}
    {segs : List String} (h : literalsAgree path segs = false) :
    specEntryMatches path val segs = false := by
  cases val <;> simp [specEntryMatches, h]

/-- The matcher succeeds exactly when the spec-side predicate holds. -/
theorem match_isSome_eq_spec {T : Type} (e : Engine T) (segments : List String) :
    (matchPathToEndpoint e segments).isSome = specMatches e segments := by
  induction e, segments using matchPathToEndpoint.induct with
  | case1 segments => simp [matchPathToEndpoint, specMatches]
  | case2 segments path val rest hgt ih =>
    have hla : literalsAgree path segments = false := by
      by_contra hc
      have := literalsAgree_length (by simpa using Bool.of_not_eq_false hc)
      omega
    simp only [matchPathToEndpoint, specMatches]
    simp [hgt, hla, ih, specEntryMatches_false hla]
  | case3 segments path val rest hgt hlt ih =>
    obtain ⟨t⟩ | ⟨s⟩ := val
    · simp only [Bool.and_eq_true, decide_eq_true_eq] at hlt
      have hne : (path.length == segments.length) = false := by
        simp; omega
      simp only [matchPathToEndpoint, specMatches, specEntryMatches, hgt, hlt]
      simp [hgt, hlt.1, hne, ih]
    · simp [RouteVal.isFn] at hlt
  | case4 segments path val rest hgt hlt hchk ih =>
    have hla : literalsAgree path segments = false := by
      rw [← checkPathSegments_isSome, hchk]; rfl
    simp only [matchPathToEndpoint, specMatches]
    simp [hgt, hlt, hchk, ih, specEntryMatches_false hla]
  | case5 segments path rest hgt vars hchk heq t hlt =>
    have hla : literalsAgree path segments = true := by
      rw [← checkPathSegments_isSome, hchk]; rfl
    simp only [matchPathToEndpoint, specMatches, specEntryMatches]
    simp [hgt, hlt, hchk, heq, hla]
  | case6 segments path rest hgt vars hchk heq s r hidx hlt =>
    have hla : literalsAgree path segments = true := by
      rw [← checkPathSegments_isSome, hchk]; rfl
    simp only [matchPathToEndpoint, specMatches, specEntryMatches]
    simp [hgt, hlt, hchk, heq, hla, hidx]
  | case7 segments path rest hgt vars hchk heq s hidx hlt ih =>
    have hla : literalsAgree path segments = true := by
      rw [← checkPathSegments_isSome, hchk]; rfl
    simp only [matchPathToEndpoint, specMatches, specEntryMatches]
    simp [hgt, hlt, hchk, heq, hla, hidx, ih]
  | case8 segments path rest hgt vars hchk hne t hlt ih =>
    have hne2 : (path.length == segments.length) = false := by simpa using hne
    simp only [matchPathToEndpoint, specMatches, specEntryMatches]
    simp [hgt, hlt, hchk, hne, hne2, ih]
  | case9 segments path rest hgt vars hchk hne s subVars t hrec hlt ihs =>
    have hla : literalsAgree path segments = true := by
      rw [← checkPathSegments_isSome, hchk]; rfl
    have hle : path.length ≤ segments.length := literalsAgree_length hla
    simp only [matchPathToEndpoint, specMatches, specEntryMatches]
    simp [hgt, hlt, hchk, hne, hla, hle, hrec, ← ihs]
  | case10 segments path rest hgt vars hchk hne s hrec hlt ihs ih =>
    have hla : literalsAgree path segments = true := by
      rw [← checkPathSegments_isSome, hchk]; rfl
    simp only [matchPathToEndpoint, specMatches, specEntryMatches]
    simp [hgt, hlt, hchk, hne, hla, hrec, ← ihs, ih]

/-- Scanning a cons tree is: try the head entry alone; only if it does
not produce a match does the scan move on to the later siblings. -/
theorem match_cons_eq {T : Type} (path : List String) (val : RouteVal T)
    (rest : Engine T) (segs : List String) :
    matchPathToEndpoint (.cons path val rest) segs =
      match matchPathToEndpoint (.cons path val .nil) segs with
      | some r => some r
      | none => matchPathToEndpoint rest segs := by
  by_cases h1 : path.length > segs.length
  · simp [matchPathToEndpoint, h1]
  by_cases h2 : (decide (path.length < segs.length) && val.isFn) = true
  · simp [matchPathToEndpoint, h1, h2]
  cases hc : checkPathSegments path segs with
  | none => simp [matchPathToEndpoint, h1, h2, hc]
  | some vars =>
    by_cases heq : path.length = segs.length
    · cases val with
      | fn t => simp [matchPathToEndpoint, h1, h2, hc, heq]
      | sub s =>
        cases hidx : getIndexHandler s with
        | none => simp [matchPathToEndpoint, h1, h2, hc, heq, hidx]
        | some t => simp [matchPathToEndpoint, h1, h2, hc, heq, hidx]
    · cases val with
      | fn t => simp [matchPathToEndpoint, h1, h2, hc, heq]
      | sub s =>
        cases hrec : matchPathToEndpoint s (segs.drop path.length) with
        | none => simp [matchPathToEndpoint, h1, h2, hc, heq, hrec]
        | some p => simp [matchPathToEndpoint, h1, h2, hc, heq, hrec]

/-- Lookup in a concatenated write sequence: the later (right) writes
win, falling back to the earlier (left) ones. -/
theorem objGet_append {V : Type} (l1 l2 : List (String × V)) (k : String) :
    objGet (l1 ++ l2) k =
      match objGet l2 k with
      | some v => some v
      | none => objGet l1 k := by
  induction l1 with
  | nil => cases h : objGet l2 k <;> simp [objGet, h]
  | cons p t ih =>
    obtain ⟨a, b⟩ := p
    cases h : objGet l2 k <;> simp [h] at ih <;>
      simp [objGet, List.cons_append, ih, h]

/-- If every step before f succeeds and f rejects, the chain stops at f:
the later steps and the terminal handler are never entered, and the sink
receives exactly the single failure raised by f. -/
theorem runChain_stops {E V R : Type} (handler : Ctx V → Except E R) (f : Step E V)
    (post : List (Step E V)) (e : E) :
    ∀ (pre : List (Step E V)) (ctx ctx1 : Ctx V),
      runSteps pre ctx = .ok ctx1 → f ctx1 = .err e →
      runChain (pre ++ f :: post) handler ctx = ⟨pre.length + 1, false, none, [e]⟩ := by
  intro pre
  induction pre with
  | nil =>
    intro ctx ctx1 h1 h2
    simp [runSteps] at h1
    subst h1
    simp [runChain, h2]
  | cons s t ih =>
    intro ctx ctx1 h1 h2
    cases hs : s ctx with
    | ok entries =>
      have h1a : runSteps t (applyLocals ctx entries) = .ok ctx1 := by
        rw [runSteps, hs] at h1; exact h1
      simp only [List.cons_append, runChain, hs, List.append_eq]
      rw [ih _ _ h1a h2]
      simp [ChainTrace.mk.injEq]
    | err e2 => rw [runSteps, hs] at h1; exact absurd h1 (by simp)

/-- If every step succeeds, every step runs and the terminal handler
runs on the fully accumulated context. -/
theorem runChain_allOk {E V R : Type} (handler : Ctx V → Except E R) :
    ∀ (steps : List (Step E V)) (ctx ctxAll : Ctx V),
      runSteps steps ctx = .ok ctxAll →
      runChain steps handler ctx =
        match handler ctxAll with
        | .ok r => ⟨steps.length, true, some r, []⟩
        | .error e2 => ⟨steps.length, true, none, [e2]⟩ := by
  intro steps
  induction steps with
  | nil =>
    intro ctx ctxAll h1
    simp [runSteps] at h1
    subst h1
    cases h : handler ctx <;> simp [runChain, h]
  | cons s t ih =>
    intro ctx ctxAll h1
    cases hs : s ctx with
    | ok entries =>
      have h1a : runSteps t (applyLocals ctx entries) = .ok ctxAll := by
        rw [runSteps, hs] at h1; exact h1
      simp only [runChain, hs, List.append_eq]
      rw [ih _ _ h1a]
      cases h : handler ctxAll <;> simp [h]
    | err e2 => rw [runSteps, hs] at h1; exact absurd h1 (by simp)

/-! ## Claim theorems -/

/-- C1: For every compiled route tree and input segment sequence, the
matcher returns a match exactly when some entry satisfies the spec-side
predicate (literal segments agree at every literal position and the
input length is compatible: equal length for a terminal; at least the
template length for a subtree, with a resolvable index entry at equal
length and a deeper recursive match on longer input); siblings are tried
in declaration order with the earliest match winning; and on the
scenario-A tree, the path user/7/msg/9 matches the inner terminal with
variables id = 7 and mid = 9. -/
theorem matcher_contract :
    (∀ (T : Type) (e : Engine T) (segments : List String),
      (matchPathToEndpoint e segments).isSome = specMatches e segments)
  ∧ (∀ (T : Type) (path : List String) (val : RouteVal T) (rest : Engine T)
      (segments : List String) (r : List (String × String) × T),
      matchPathToEndpoint (.cons path val .nil) segments = some r →
      matchPathToEndpoint (.cons path val rest) segments = some r)
  ∧ matchPathToEndpoint (compileRouteTree scenarioARaw) ["user", "7", "msg", "9"]
      = some ([("id", "7"), ("mid", "9")], 0)
  ∧ objGet [("id", "7"), ("mid", "9")] "id" = some "7"
  ∧ objGet [("id", "7"), ("mid", "9")] "mid" = some "9" := by
  refine ⟨fun T e segments => match_isSome_eq_spec e segments,
          fun T path val rest segments r h => ?_, by decide, by decide, by decide⟩
  rw [match_cons_eq, h]

/-- C1 witness: with two sibling terminals both matching the path "a",
the earliest-declared one is selected. -/
theorem matcher_contract_witness :
    matchPathToEndpoint (.cons ["a"] (.fn 1) (.cons ["a"] (.fn 2) .nil)) ["a"]
      = some ([], 1) :=
  matcher_contract.2.1 Nat ["a"] (.fn 1) (.cons ["a"] (.fn 2) .nil) ["a"] ([], 1)
    (by decide)

/-- C2: In a finalized chain, if the steps before f succeed and f fails,
exactly the steps up to and including f run, no later step and not the
terminal handler, and the error sink receives exactly the one failure f
raised; if instead every step succeeds, the terminal handler runs on the
fully accumulated context. -/
theorem chain_short_circuit {E V R : Type} (pre post : List (Step E V)) (f : Step E V)
    (handler : Ctx V → Except E R) (ctx ctx1 : Ctx V) (e : E) :
    (runSteps pre ctx = .ok ctx1 → f ctx1 = .err e →
      runChain (pre ++ f :: post) handler ctx = ⟨pre.length + 1, false, none, [e]⟩)
  ∧ (∀ ctxAll, runSteps (pre ++ f :: post) ctx = .ok ctxAll →
      runChain (pre ++ f :: post) handler ctx =
        match handler ctxAll with
        | .ok r => ⟨(pre ++ f :: post).length, true, some r, []⟩
        | .error e2 => ⟨(pre ++ f :: post).length, true, none, [e2]⟩) :=
  ⟨fun h1 h2 => runChain_stops handler f post e pre ctx ctx1 h1 h2,
   fun ctxAll hAll => runChain_allOk handler (pre ++ f :: post) ctx ctxAll hAll⟩

/-- C2 witness: a three-step chain whose middle step fails runs exactly
two steps, skips the terminal handler and delivers the single failure;
the all-success variant runs the terminal handler. -/
theorem chain_short_circuit_witness :
    runChain (E := Nat) (V := Nat) (R := Nat)
        ([fun _ => .ok [("a", 1)]] ++ (fun _ => .err 7) :: [fun _ => .ok [("b", 2)]])
        (fun _ => .ok 5) [] = ⟨2, false, none, [7]⟩
  ∧ runChain (E := Nat) (V := Nat) (R := Nat)
        ([fun _ => .ok [("a", 1)]] ++ (fun _ => .ok [("b", 2)]) :: [])
        (fun _ => .ok 5) [] = ⟨2, true, some 5, []⟩ :=
  ⟨(chain_short_circuit [fun _ => .ok [("a", 1)]] [fun _ => .ok [("b", 2)]]
      (fun _ => .err 7) (fun _ => .ok 5) [] [("a", 1)] 7).1 rfl rfl,
   (chain_short_circuit [fun _ => .ok [("a", 1)]] [] (fun _ => .ok [("b", 2)])
      (fun _ => .ok 5) [] [("a", 1)] 7).2 [("a", 1), ("b", 2)] rfl⟩

/-- C3: under verbose reporting with the response status still at its
default, a typed error produces the table status (or the explicit
override) and the structured error envelope; any other raised failure
produces status 500; the table is 400, 401, 403, 404, 500; and the
UNAUTHORIZED/"no" scenario yields 401 with the structured body. -/
theorem error_table_response :
    (∀ (code : ErrorType) (message : String),
      defaultErrorHandler true 200 (.erpc code message none)
        = ⟨ErrorMap code, false, some (.typed code message)⟩)
  ∧ (∀ (code : ErrorType) (message : String) (n : Nat),
      defaultErrorHandler true 200 (.erpc code message (some n))
        = ⟨n, false, some (.typed code message)⟩)
  ∧ (∀ message : String, (defaultErrorHandler true 200 (.plain message)).status = 500)
  ∧ (defaultErrorHandler true 200 .nonError).status = 500
  ∧ ErrorMap .BAD_REQUEST = 400 ∧ ErrorMap .UNAUTHORIZED = 401
  ∧ ErrorMap .FORBIDDEN = 403 ∧ ErrorMap .NOT_FOUND = 404
  ∧ ErrorMap .SERVER_ERROR = 500
  ∧ defaultErrorHandler true 200 (.erpc .UNAUTHORIZED "no" none)
      = ⟨401, false, some (.typed .UNAUTHORIZED "no")⟩ := by
  refine ⟨fun code message => rfl, fun code message n => rfl, fun message => rfl,
          rfl, rfl, rfl, rfl, rfl, rfl, rfl⟩

/-- C4: a malformed frame, a frame naming an event with no registered
handler, a frame whose event has no declared validator, and a frame
whose payload fails the schema are all silently dropped: no handler is
invoked, nothing is sent back, the connection stays open and no error
surfaces; in particular the ping frame on a connection with no handlers
is dropped this way. -/
theorem silent_drop :
    (∀ (E P : Type) (validators : String → Option (P → Option P))
       (handlers : String → Option (EventHandler E P)),
      onMessage validators handlers .malformed
        = ⟨none, [], false, some .parseFail, none⟩)
  ∧ (∀ (E P : Type) (validators : String → Option (P → Option P))
       (handlers : String → Option (EventHandler E P)) (name : String) (d : P),
      handlers name = none →
      onMessage validators handlers (.frame name d)
        = ⟨none, [], false, some (.missingHandler name), none⟩)
  ∧ (∀ (E P : Type) (validators : String → Option (P → Option P))
       (handlers : String → Option (EventHandler E P)) (name : String) (d : P)
       (h : EventHandler E P) (v : P → Option P),
      handlers name = some h → validators name = some v → v d = none →
      onMessage validators handlers (.frame name d)
        = ⟨none, [], false, some .schemaFail, none⟩)
  ∧ (∀ (E P : Type) (validators : String → Option (P → Option P))
       (handlers : String → Option (EventHandler E P)) (name : String) (d : P)
       (h : EventHandler E P),
      handlers name = some h → validators name = none →
      onMessage validators handlers (.frame name d)
        = ⟨none, [], false, some (.missingValidator name), none⟩)
  ∧ onMessage (E := Nat) (P := Nat) (fun _ => none) (fun _ => none) (.frame "ping" 0)
      = ⟨none, [], false, some (.missingHandler "ping"), none⟩ := by
  refine ⟨fun E P validators handlers => rfl,
          fun E P validators handlers name d hh => ?_,
          fun E P validators handlers name d h v hh hv hd => ?_,
          fun E P validators handlers name d h hh hv => ?_, rfl⟩
  · simp [onMessage, tryDispatch, hh]
  · simp [onMessage, tryDispatch, hh, hv, hd]
  · simp [onMessage, tryDispatch, hh, hv]

/-- C4 witness: a frame for an event with no registered handler, on
concrete maps, is dropped silently. -/
theorem silent_drop_witness :
    onMessage (E := Nat) (P := Nat) (fun _ => none) (fun _ => none) (.frame "pong" 1)
      = ⟨none, [], false, some (.missingHandler "pong"), none⟩ :=
  silent_drop.2.1 Nat Nat (fun _ => none) (fun _ => none) "pong" 1 rfl

/-- C5: a failing setup handler closes the socket with code 4000 plus
the mapped status and the structured error reason; a FORBIDDEN failure
closes with 4403; a successful setup handler sends the sentinel ready
frame instead. -/
theorem setup_failure_close :
    (∀ e : JsError, handleSetupResult (.error e)
        = .close (4000 + (transformERPCError e).1) ⟨(transformERPCError e).2⟩)
  ∧ (∀ message : String, handleSetupResult (.error (.erpc .FORBIDDEN message none))
        = .close 4403 ⟨.typed .FORBIDDEN message⟩)
  ∧ handleSetupResult (.ok ()) = .sendReady "@scinorandex/erpc -- stabilize" :=
  ⟨fun _ => rfl, fun _ => rfl, rfl⟩

/-- C6: extend returns a new procedure definition that is the receiver's
step sequence with the given step appended, and two children extended
from the same base are independent: a step appended to one child never
appears in the other. -/
theorem extend_pure {α : Type} (p : GenProc α) (s s1 s2 : α)
    (hs1 : s1 ∉ p.previous) (hne : s1 ≠ s2) :
    (p.extend s).previous = p.previous ++ [s]
  ∧ s1 ∉ (p.extend s2).previous
  ∧ (p.extend s1).previous = p.previous ++ [s1] := by
  refine ⟨rfl, ?_, rfl⟩
  simp [GenProc.extend, generateProcedure, hs1, hne]

/-- C6 witness: extending a concrete one-step base procedure. -/
theorem extend_pure_witness :
    ((⟨[0]⟩ : GenProc Nat).extend 3).previous = [0] ++ [3]
  ∧ (1 : Nat) ∉ ((⟨[0]⟩ : GenProc Nat).extend 2).previous
  ∧ ((⟨[0]⟩ : GenProc Nat).extend 1).previous = [0] ++ [1] :=
  extend_pure ⟨[0]⟩ 3 1 2 (by decide) (by decide)

/-- C7: when a match recurses into a subtree, the result's bindings are
the outer-level bindings followed by the recursive result's bindings,
and lookup prefers the inner (deeper) binding on any name collision. -/
theorem merge_inner_precedence {T : Type} (path : List String) (s rest : Engine T)
    (segments : List String) (v1 v2 : List (String × String)) (t : T)
    (hlen : path.length < segments.length)
    (hchk : checkPathSegments path segments = some v1)
    (hrec : matchPathToEndpoint s (segments.drop path.length) = some (v2, t)) :
    matchPathToEndpoint (.cons path (.sub s) rest) segments = some (v1 ++ v2, t)
  ∧ ∀ k, objGet (v1 ++ v2) k =
      match objGet v2 k with
      | some v => some v
      | none => objGet v1 k := by
  constructor
  · have h1 : ¬ path.length > segments.length := by omega
    have h2 : path.length ≠ segments.length := by omega
    simp [matchPathToEndpoint, h1, h2, RouteVal.isFn, hchk, hrec]
  · intro k
    have h3 := objGet_append v1 v2 k
    cases h2 : objGet v2 k <;> simp [h2] at h3 ⊢ <;> exact h3

/-- C7 witness: outer and inner both bind the name x; the merged map
resolves x to the inner binding. -/
theorem merge_inner_precedence_witness :
    matchPathToEndpoint (.cons [":x"] (.sub (.cons [":x"] (.fn 0) .nil)) .nil)
        ["a", "b"] = some ([("x", "a"), ("x", "b")], 0)
  ∧ objGet [("x", "a"), ("x", "b")] "x" = some "b" := by
  have h := merge_inner_precedence [":x"] (.cons [":x"] (.fn (0 : Nat)) .nil) .nil
      ["a", "b"] [("x", "a")] [("x", "b")] 0 (by decide) (by decide) (by decide)
  exact ⟨h.1, (h.2 "x").trans (by decide)⟩

/-- C8 counterexample: with template ":id" and input segment ":id" the
entry matches, but the input segment is NOT bound under the declared
name (the exact-equality test fires before the variable test), refuting
unconditional binding. -/
theorem variable_binding_counterexample :
    (matchPathToEndpoint (.cons [":id"] (.fn 0) .nil) [":id"]).map
        (fun m => objGet m.1 "id") = some none := by decide

/-- C8 (amended): a variable segment always matches any input segment,
and binds it under the declared name whenever the input segment differs
from the variable token itself; when they are literally equal the
segment matches with no binding recorded. -/
theorem variable_binding_amended (x y : String) (xs ys : List String)
    (vs : List (String × String))
    (hvar : strStartsWithChar ':' x = true)
    (htail : checkPathSegments xs ys = some vs) :
    checkPathSegments (x :: xs) (y :: ys)
      = some (if x = y then vs else (strTail x, y) :: vs) := by
  by_cases hxy : x = y
  · simp [checkPathSegments, hxy, htail]
  · simp [checkPathSegments, hxy, hvar, htail]

/-- C8 witness: the variable segment ":id" binds the differing input
segment 7 under the name id. -/
theorem variable_binding_amended_witness :
    checkPathSegments [":id"] ["7"] = some [("id", "7")] :=
  (variable_binding_amended ":id" "7" [] [] [] (by decide) rfl).trans (by decide)

/-- C9: the per-request context merge is shallow last-writer-wins: after
applying a step's returned entries, lookup takes the step's value for
every key it returned and the prior value otherwise; and the two-step
chain returning a=1 then a=2 hands the terminal handler the context
resolving a to 2. -/
theorem context_last_writer_wins :
    (∀ (V : Type) (ctx : Ctx V) (entries : List (String × V)) (k : String),
      objGet (applyLocals ctx entries) k =
        match objGet entries k with
        | some v => some v
        | none => objGet ctx k)
  ∧ runChain (E := Nat) (V := Nat) (R := Option Nat)
      [fun _ => .ok [("a", 1)], fun _ => .ok [("a", 2)]]
      (fun ctx => .ok (objGet ctx "a")) [] = ⟨2, true, some (some 2), []⟩ :=
  ⟨fun _ ctx entries k => objGet_append ctx entries k, rfl⟩

/-- C10 counterexample: a registered handler that fails during inbound
dispatch does NOT propagate its failure out of the frame-processing
path: the listener's catch intercepts and swallows it (nothing escapes,
nothing is sent, the connection stays open), refuting the claim that no
dispatcher-level catch surrounds the handler invocation. -/
theorem handler_catch_counterexample :
    (onMessage (E := Nat) (P := Nat)
        (fun n => if n = "evt" then some (fun d => some d) else none)
        (fun n => if n = "evt" then some (fun _ => ⟨[], some 3⟩) else none)
        (.frame "evt" 5)).uncaught = none
  ∧ (onMessage (E := Nat) (P := Nat)
        (fun n => if n = "evt" then some (fun d => some d) else none)
        (fun n => if n = "evt" then some (fun _ => ⟨[], some 3⟩) else none)
        (.frame "evt" 5)).swallowed = some (.handlerFailure 3)
  ∧ (onMessage (E := Nat) (P := Nat)
        (fun n => if n = "evt" then some (fun d => some d) else none)
        (fun n => if n = "evt" then some (fun _ => ⟨[], some 3⟩) else none)
        (.frame "evt" 5)).invoked = some ("evt", 5) :=
  ⟨rfl, rfl, rfl⟩

/-- C10 (amended): the dispatcher-level try/catch DOES surround the
handler invocation: a handler failure during inbound dispatch is
intercepted by the Connection's dispatch code and silently swallowed —
the listener reports the handler as invoked, forwards nothing, leaves
the connection open and lets nothing propagate uncaught. -/
theorem handler_catch_amended {E P : Type} (validators : String → Option (P → Option P))
    (handlers : String → Option (EventHandler E P)) (name : String) (d payload : P)
    (h : EventHandler E P) (v : P → Option P)
    (hh : handlers name = some h) (hv : validators name = some v)
    (hp : v d = some payload) :
    onMessage validators handlers (.frame name d)
      = ⟨some (name, payload), (h payload).sends, false,
         (h payload).failure.map .handlerFailure, none⟩ := by
  simp [onMessage, tryDispatch, hh, hv, hp]

/-- C10 witness: a concrete failing handler is invoked and its failure
swallowed. -/
theorem handler_catch_amended_witness :
    onMessage (E := Nat) (P := Nat)
        (fun n => if n = "x" then some (fun d => some d) else none)
        (fun n => if n = "x" then some (fun _ => ⟨[("y", 9)], some 4⟩) else none)
        (.frame "x" 2)
      = ⟨some ("x", 2), [("y", 9)], false, some (.handlerFailure 4), none⟩ :=
  handler_catch_amended
    (fun n => if n = "x" then some (fun d => some d) else none)
    (fun n => if n = "x" then some (fun _ => ⟨[("y", 9)], some 4⟩) else none)
    "x" 2 2 (fun _ => ⟨[("y", 9)], some 4⟩) (fun d => some d) rfl rfl rfl

end Erpc
